import Mathlib

/-
Verification development for the QariAI local progress store.

Shallow embedding of the on-device SQLite data layer:
  - the schema and seed data from src/db/schema.ts (letters catalog, level
    thresholds, migration runner);
  - the data service from src/services/data.ts (recordAttempt,
    getPerLetterStats, getTotals, getLast7Days, getLast7DaysForLetters,
    computeAndUpdateLevel, getCurrentLevel);
  - the guided-tour step machine from src/tutorial/TutorialContext.tsx.

Tables are modelled as lists of rows; SQL REAL arithmetic is modelled with
exact rationals; SQLite BINARY text comparison is modelled by code-point
lexicographic comparison (the timestamp strings involved are pure ASCII, so
byte order and code-point order coincide); fallible operations return Except.
-/

namespace QariAI

/-- Code-point lexicographic comparison of character lists.  Models SQLite's
BINARY collation (memcmp on UTF-8 bytes), which agrees with code-point order
on the ASCII timestamp strings this layer compares. -/
def charListLe : List Char → List Char → Bool
  | [], _ => true
  | _ :: _, [] => false
  | a :: as, b :: bs =>
    if a.toNat < b.toNat then true
    else if b.toNat < a.toNat then false
    else charListLe as bs

/-- SQLite string comparison, as used by `created_at >= cutoff`. -/
def strLe (a b : String) : Bool := charListLe a.data b.data

/-- The canonical catalog of 28 Arabic letter names, from CANON_LETTERS in
src/db/schema.ts. -/
def CANON_LETTERS : List String :=
  ["الف","باء","تاء","ثاء","جيم","حاء","خاء","دال","ذال","راء","زاي",
   "سين","شين","صاد","ضاد","طاء","ظاء","عين","غين","فاء","قاف","كاف",
   "لام","ميم","نون","هاء","واو","ياء"]

/-- Row of the `letters` table. -/
structure LetterRow where
  id : Nat
  ar : String
  en : Option String
  order_index : Nat
deriving DecidableEq

/-- Row of the `attempts` table.  `correct` is stored as 0/1 in SQLite and
modelled as Bool; `created_at` is the stored UTC ISO string. -/
structure AttemptRow where
  user_id : String
  target_letter_id : Nat
  predicted_letter_id : Option Nat
  correct : Bool
  confidence : Option ℚ
  duration_ms : Option Int
  audio_uri : Option String
  created_at : String
deriving DecidableEq

/-- Row of the `levels` (threshold) table. -/
structure LevelRow where
  level : Nat
  min_accuracy : ℚ
  min_attempts : Nat
deriving DecidableEq

/-- Row of the `user_levels` table. -/
structure UserLevelRow where
  user_id : String
  level : Nat
  updated_at : String
deriving DecidableEq

/-- Row of the `users` table. -/
structure UserRow where
  id : String
  display_name : Option String
  created_at : String
deriving DecidableEq

/-- The database state: the `_meta` version row (none when the row is
absent) and the five data tables. -/
structure DB where
  meta : Option Nat
  users : List UserRow
  letters : List LetterRow
  attempts : List AttemptRow
  levels : List LevelRow
  user_levels : List UserLevelRow
deriving DecidableEq

/-- Letters seeded by MIGRATIONS[0].post in src/db/schema.ts:
id = order_index = position in CANON_LETTERS, en left NULL. -/
def seededLetters : List LetterRow :=
  CANON_LETTERS.enum.map (fun p => { id := p.1, ar := p.2, en := none, order_index := p.1 })

/-- Level thresholds seeded by MIGRATIONS[0].post in src/db/schema.ts. -/
def seededLevels : List LevelRow :=
  [ { level := 1, min_accuracy := 0.50, min_attempts := 20 },
    { level := 2, min_accuracy := 0.65, min_attempts := 50 },
    { level := 3, min_accuracy := 0.75, min_attempts := 100 },
    { level := 4, min_accuracy := 0.85, min_attempts := 200 },
    { level := 5, min_accuracy := 0.92, min_attempts := 350 } ]

/-- Effect of migration 1 on the database state: the schema statements
(CREATE TABLE IF NOT EXISTS leaves data untouched; DELETE FROM _meta plus
INSERT sets the version row to 0), then the runner sets the version to the
migration id, then the post hook seeds letters and levels, each guarded by a
count-of-rows check. -/
def applyMigration1 (db : DB) : DB :=
  let db1 : DB := { db with meta := some 0 }
  let db2 : DB := { db1 with meta := some 1 }
  let db3 : DB := if db2.letters.length = 0 then { db2 with letters := seededLetters } else db2
  if db3.levels.length = 0 then { db3 with levels := seededLevels } else db3

/-- Model of runMigrations in src/db/schema.ts: ensure the `_meta` row
exists (inserting version 0 when missing), read the current version, and
apply each migration whose id exceeds it (there is exactly one, with id 1). -/
def runMigrations (db : DB) : DB :=
  let db1 : DB := if db.meta.isNone then { db with meta := some 0 } else db
  let cur : Nat := db1.meta.getD 0
  if cur < 1 then applyMigration1 db1 else db1

/-- The freshly opened database: no version row, all tables empty. -/
def emptyDB : DB :=
  { meta := none, users := [], letters := [], attempts := [], levels := [], user_levels := [] }

/-- Model of letterIdByAr in src/services/data.ts: first `letters` row whose
`ar` equals the label, returning its id; none models the thrown
"Unknown letter" error. -/
def letterIdByAr (db : DB) (ar : String) : Option Nat :=
  (db.letters.find? (fun l => l.ar == ar)).map (fun l => l.id)

/-- Input of recordAttempt (the NewAttempt type in src/services/data.ts).
`predictedLetterAr = none` models both `undefined` and `null`. -/
structure NewAttempt where
  userId : String
  targetLetterAr : String
  predictedLetterAr : Option String
  correct : Bool
  confidence : Option ℚ
  durationMs : Option Int
  audioUri : Option String
deriving DecidableEq

/-- Resolution of the predicted-letter label inside recordAttempt: the label
is resolved only when it is JavaScript-truthy (present and non-empty),
matching `a.predictedLetterAr ? letterIdByAr(...) : null`; a falsy label
yields NULL without consulting the catalog. -/
def resolvePredicted (db : DB) (pred : Option String) : Except String (Option Nat) :=
  match pred with
  | none => .ok none
  | some s =>
    if s = "" then .ok none
    else
      match letterIdByAr db s with
      | none => .error ("Unknown letter: " ++ s)
      | some i => .ok (some i)

/-- The row recordAttempt inserts on success. -/
def newAttemptRow (a : NewAttempt) (targetId : Nat) (predId : Option Nat) (now : String) :
    AttemptRow :=
  { user_id := a.userId, target_letter_id := targetId,
    predicted_letter_id := predId, correct := a.correct,
    confidence := a.confidence, duration_ms := a.durationMs,
    audio_uri := a.audioUri, created_at := now }

/-- Model of recordAttempt in src/services/data.ts.  The target label is
resolved first and a failure aborts with the unknown-letter error; then the
predicted label is resolved; on success exactly one row is appended to
`attempts` with the supplied UTC timestamp `now` (the SQL strftime default),
and no other table is touched. -/
def recordAttempt (db : DB) (a : NewAttempt) (now : String) : Except String DB :=
  match letterIdByAr db a.targetLetterAr with
  | none => .error ("Unknown letter: " ++ a.targetLetterAr)
  | some targetId =>
    match resolvePredicted db a.predictedLetterAr with
    | .error e => .error e
    | .ok predId =>
      .ok { db with attempts := db.attempts ++ [newAttemptRow a targetId predId now] }

/-- Ordering relation used by `ORDER BY l.order_index`. -/
def orderIdxLe (a b : LetterRow) : Prop := a.order_index ≤ b.order_index

instance : DecidableRel orderIdxLe := fun a b => Nat.decLe a.order_index b.order_index

instance : IsTotal LetterRow orderIdxLe := ⟨fun a b => Nat.le_total a.order_index b.order_index⟩

instance : IsTrans LetterRow orderIdxLe := ⟨fun _ _ _ => Nat.le_trans⟩

/-- Result row of getPerLetterStats. -/
structure PerLetter where
  ar : String
  n : Nat
  correct : Nat
  acc : ℚ
deriving DecidableEq

/-- Model of getPerLetterStats in src/services/data.ts: the LEFT JOIN grouped
by letter id yields one row per `letters` row, ordered by `order_index`;
COUNT(a.id) counts the user's attempts on that letter, SUM(a.correct) (NULL
coalesced to 0 by the TypeScript mapping) counts the correct ones, and the
CASE expression yields 0 accuracy for an empty group. -/
def perLetterRow (db : DB) (u : String) (l : LetterRow) : PerLetter :=
  let g := db.attempts.filter (fun a => a.target_letter_id == l.id && a.user_id == u)
  { ar := l.ar, n := g.length,
    correct := (g.filter (fun a => a.correct)).length,
    acc := if g.length = 0 then 0
           else ((g.filter (fun a => a.correct)).length : ℚ) / (g.length : ℚ) }

def getPerLetterStats (db : DB) (u : String) : List PerLetter :=
  (List.insertionSort orderIdxLe db.letters).map (perLetterRow db u)

/-- Result of getTotals. -/
structure Totals where
  n : Nat
  correct : Nat
  acc : ℚ
deriving DecidableEq

/-- Model of getTotals in src/services/data.ts: COUNT(*) and SUM(correct)
over the user's attempts (SUM of no rows is NULL, coalesced to 0), and
`acc = n ? correct / n : 0`. -/
def getTotals (db : DB) (u : String) : Totals :=
  let g := db.attempts.filter (fun a => a.user_id == u)
  let n := g.length
  let c := g.foldl (fun s a => s + (if a.correct then 1 else 0)) 0
  { n := n, correct := c, acc := if n = 0 then 0 else (c : ℚ) / (n : ℚ) }

/-- Result row of the trailing 7-day queries. -/
structure DayRow where
  day : String
  n : Nat
  acc : ℚ
deriving DecidableEq

/-- Day key of an attempt: substr(created_at, 1, 10), the 10-character UTC
calendar-day prefix of the stored timestamp. -/
def dayOf (a : AttemptRow) : String := a.created_at.take 10

/-- Ordering relation used by `ORDER BY day ASC` (SQLite string order). -/
def dayRel (a b : String) : Prop := strLe a b = true

instance : DecidableRel dayRel := fun a b => instDecidableEqBool (strLe a b) true

/-- GROUP BY day over a list of attempts: one row per distinct day key,
ordered ascending, carrying the group's COUNT(*) and its mean correctness
(SUM(correct)/COUNT(*), equivalently AVG(correct) — the two SQL queries
spell it differently; the CASE yields 0 for an empty group). -/
def dayRowFor (as : List AttemptRow) (d : String) : DayRow :=
  let g := as.filter (fun a => dayOf a == d)
  { day := d, n := g.length,
    acc := if g.length = 0 then 0
           else ((g.filter (fun a => a.correct)).length : ℚ) / (g.length : ℚ) }

def groupByDay (as : List AttemptRow) : List DayRow :=
  (List.insertionSort dayRel (as.map dayOf).dedup).map (dayRowFor as)

/-- Model of getLast7Days in src/services/data.ts.  `cutoff` is the string
produced by SQLite for datetime('now', '-7 days') — format
YYYY-MM-DD HH:MM:SS with a space separator — and the WHERE clause keeps the
user's attempts whose stored timestamp compares ≥ cutoff as a string. -/
def getLast7Days (db : DB) (u : String) (cutoff : String) : List DayRow :=
  groupByDay (db.attempts.filter (fun a => a.user_id == u && strLe cutoff a.created_at))

/-- Display label of an attempt's target letter via the `letters` table
(the JOIN in getLast7DaysForLetters; letter ids are unique, being the
primary key). -/
def targetAr (db : DB) (a : AttemptRow) : Option String :=
  (db.letters.find? (fun l => l.id == a.target_letter_id)).map (fun l => l.ar)

/-- Model of getLast7DaysForLetters in src/services/data.ts: an empty (or
missing) letter list short-circuits to the empty series; otherwise the JOIN
plus IN-clause keep the user's in-window attempts whose target letter's
label is one of the supplied names. -/
def getLast7DaysForLetters (db : DB) (u : String) (cutoff : String)
    (letterNames : List String) : List DayRow :=
  if letterNames.isEmpty then []
  else
    groupByDay (db.attempts.filter (fun a =>
      a.user_id == u && strLe cutoff a.created_at &&
      (match targetAr db a with
       | some ar => letterNames.contains ar
       | none => false)))

/-- Ordering relation used by `ORDER BY level ASC`. -/
def levelLe (a b : LevelRow) : Prop := a.level ≤ b.level

instance : DecidableRel levelLe := fun a b => Nat.decLe a.level b.level

instance : IsTotal LevelRow levelLe := ⟨fun a b => Nat.le_total a.level b.level⟩

instance : IsTrans LevelRow levelLe := ⟨fun _ _ _ => Nat.le_trans⟩

/-- The threshold scan of computeAndUpdateLevel: best starts at 1 and each
row (visited in the list's order) with `n >= min_attempts && acc >=
min_accuracy` overwrites it with its level. -/
def bestLevelFrom (lvls : List LevelRow) (n : Nat) (acc : ℚ) (b : Nat) : Nat :=
  lvls.foldl (fun best L => if L.min_attempts ≤ n ∧ L.min_accuracy ≤ acc then L.level else best) b

/-- The scan of computeAndUpdateLevel starts from `let best = 1`. -/
def bestLevel (lvls : List LevelRow) (n : Nat) (acc : ℚ) : Nat :=
  bestLevelFrom lvls n acc 1

/-- Model of the upsert `INSERT ... ON CONFLICT(user_id) DO UPDATE`:
update the existing row's level and timestamp when one matches the user,
otherwise append a fresh row. -/
def upsertRows (rows : List UserLevelRow) (u : String) (lvl : Nat) (now : String) :
    List UserLevelRow :=
  if rows.any (fun r => r.user_id == u) then
    rows.map (fun r => if r.user_id == u then { r with level := lvl, updated_at := now } else r)
  else rows ++ [ { user_id := u, level := lvl, updated_at := now } ]

/-- Model of computeAndUpdateLevel in src/services/data.ts: read the user's
totals, scan the `levels` table in ascending level order, upsert the result
into `user_levels` (with the fresh timestamp `now`), and return it. -/
def computeAndUpdateLevel (db : DB) (u : String) (now : String) : Nat × DB :=
  let t := getTotals db u
  let best := bestLevel (List.insertionSort levelLe db.levels) t.n t.acc
  (best, { db with user_levels := upsertRows db.user_levels u best now })

/-- Model of getCurrentLevel in src/services/data.ts: the user's stored
level, defaulting to 1 when no row exists. -/
def getCurrentLevel (db : DB) (u : String) : Nat :=
  ((db.user_levels.find? (fun r => r.user_id == u)).map (fun r => r.level)).getD 1

/-- Steps of the guided tour (TutorialContext.tsx). -/
inductive Step where
  | home
  | levels
  | practice
  | profile
  | done
deriving DecidableEq

/-- The fixed step order used by `next()`. -/
def stepOrder : List Step := [.home, .levels, .practice, .profile, .done]

/-- Model of `next()` in TutorialContext.tsx: move to
order[min(idx + 1, order.length - 1)]. -/
def nextStep (s : Step) : Step :=
  stepOrder.getD (min (stepOrder.indexOf s + 1) (stepOrder.length - 1)) s

/-
Concrete database states used to exercise the seeded thresholds.
-/

/-- The database right after first startup: all migrations applied, catalogs
seeded, no user data. -/
def dbSeeded : DB := runMigrations emptyDB

/-- One practice attempt with only the fields that matter for totals. -/
def simpleAttempt (u : String) (c : Bool) : AttemptRow :=
  { user_id := u, target_letter_id := 1, predicted_letter_id := none, correct := c,
    confidence := none, duration_ms := none, audio_uri := none,
    created_at := "2025-01-01T00:00:00.000Z" }

/-- A user with 20 attempts at exactly 50 percent accuracy. -/
def db20 : DB :=
  { dbSeeded with attempts :=
      List.replicate 10 (simpleAttempt "u" true) ++ List.replicate 10 (simpleAttempt "u" false) }

/-- A user with 50 attempts at 70 percent accuracy. -/
def db50 : DB :=
  { dbSeeded with attempts :=
      List.replicate 35 (simpleAttempt "u" true) ++ List.replicate 15 (simpleAttempt "u" false) }

/-- A user with 50 attempts, all correct: qualifies for level 2. -/
def dbHigh : DB := { dbSeeded with attempts := List.replicate 50 (simpleAttempt "u" true) }

/-- The stored state after promoting that user. -/
def dbAfterFirst : DB := (computeAndUpdateLevel dbHigh "u" "2025-01-02T00:00:00.000Z").2

/-- The same user after 50 further attempts, all wrong: overall accuracy
drops to 50 percent. -/
def dbDrop : DB :=
  { dbAfterFirst with attempts :=
      dbAfterFirst.attempts ++ List.replicate 50 (simpleAttempt "u" false) }

/-
Calendar and timestamp-format helpers used to relate the stored strings to
instants in time.
-/

/-- Days since 1970-01-01 of a proleptic-Gregorian civil date (the standard
days-from-civil algorithm). -/
def civilToDays (y m d : Int) : Int :=
  let y2 := if m ≤ 2 then y - 1 else y
  let era := (if 0 ≤ y2 then y2 else y2 - 399) / 400
  let yoe := y2 - era * 400
  let mp := if 2 < m then m - 3 else m + 9
  let doy := (153 * mp + 2) / 5 + d - 1
  let doe := yoe * 365 + yoe / 4 - yoe / 100 + doy
  era * 146097 + doe - 719468

/-- Milliseconds since the epoch of a UTC datetime. -/
def utcMillis (y m d h mi s ms : Int) : Int :=
  (civilToDays y m d * 86400 + h * 3600 + mi * 60 + s) * 1000 + ms

/-- Decimal digit character of n mod 10. -/
def decDigit (n : Nat) : Char := Char.ofNat (48 + n % 10)

/-- Two-digit zero-padded decimal rendering. -/
def pad2 (n : Nat) : String := String.mk [decDigit (n / 10), decDigit n]

/-- Three-digit zero-padded decimal rendering. -/
def pad3 (n : Nat) : String := String.mk [decDigit (n / 100), decDigit (n / 10), decDigit n]

/-- Four-digit zero-padded decimal rendering. -/
def pad4 (n : Nat) : String :=
  String.mk [decDigit (n / 1000), decDigit (n / 100), decDigit (n / 10), decDigit n]

/-- The string SQLite stores for an attempt timestamp:
strftime of the format YYYY-MM-DDTHH:MM:SS.SSSZ with a literal T separator. -/
def fmtAttemptTs (y m d h mi s ms : Nat) : String :=
  pad4 y ++ "-" ++ pad2 m ++ "-" ++ pad2 d ++ "T" ++ pad2 h ++ ":" ++ pad2 mi ++ ":" ++
    pad2 s ++ "." ++ pad3 ms ++ "Z"

/-- The string SQLite produces for datetime(...): format
YYYY-MM-DD HH:MM:SS with a space separator and no fractional seconds. -/
def fmtSqliteNow (y m d h mi s : Nat) : String :=
  pad4 y ++ "-" ++ pad2 m ++ "-" ++ pad2 d ++ " " ++ pad2 h ++ ":" ++ pad2 mi ++ ":" ++ pad2 s

/-- An attempt recorded at 2025-10-05T04:00:00Z. -/
def oldAttempt : AttemptRow :=
  { user_id := "u", target_letter_id := 1, predicted_letter_id := none, correct := true,
    confidence := none, duration_ms := none, audio_uri := none,
    created_at := "2025-10-05T04:00:00.000Z" }

/-- A seeded database whose only attempt is `oldAttempt`. -/
def dbC5 : DB := { dbSeeded with attempts := [oldAttempt] }

/-- Default row used with List.getD when indexing per-letter results. -/
def dfltPerLetter : PerLetter := { ar := "", n := 0, correct := 0, acc := 0 }

/-- An attempt whose target label resolves but whose predicted label is the
empty string: present, not in the catalog, yet JavaScript-falsy. -/
def aEmptyPred : NewAttempt :=
  { userId := "u", targetLetterAr := "باء", predictedLetterAr := some "",
    correct := true, confidence := none, durationMs := none, audioUri := none }

/-- An attempt whose target label is not in the canonical catalog. -/
def aBadTarget : NewAttempt :=
  { userId := "u", targetLetterAr := "قق", predictedLetterAr := none,
    correct := false, confidence := none, durationMs := none, audioUri := none }

/-- Another empty-string-predicted attempt, on a different letter and user. -/
def aC10 : NewAttempt :=
  { userId := "w", targetLetterAr := "تاء", predictedLetterAr := some "",
    correct := false, confidence := none, durationMs := none, audioUri := none }

/-- The seeded database with a differing user_levels table. -/
def dbAltLevels : DB :=
  { dbSeeded with user_levels :=
      [ { user_id := "u", level := 5, updated_at := "2024-01-01T00:00:00.000Z" } ] }

/-
Helper lemmas about the migration runner.
-/

/-- Sanity anchor for the civil-date arithmetic. -/
lemma civilToDays_epoch : civilToDays 1970 1 1 = 0 := by decide

lemma applyMigration1_meta (x : DB) : (applyMigration1 x).meta = some 1 := by
  simp only [applyMigration1]
  split_ifs <;> rfl

lemma runMigrations_meta (db : DB) : ∃ v, 1 ≤ v ∧ (runMigrations db).meta = some v := by
  unfold runMigrations
  cases hm : db.meta with
  | none => exact ⟨1, le_refl 1, by simp [hm, applyMigration1_meta]⟩
  | some v =>
    cases v with
    | zero => exact ⟨1, le_refl 1, by simp [hm, applyMigration1_meta]⟩
    | succ w => exact ⟨w + 1, by omega, by simp [hm]⟩

lemma runMigrations_fixed (x : DB) (v : Nat) (hv : 1 ≤ v) (h : x.meta = some v) :
    runMigrations x = x := by
  unfold runMigrations
  rw [h]
  simp only [Option.isNone_some]
  simp only [if_neg (by simp : ¬ (false = true))]
  rw [h]
  simp only [Option.getD_some]
  rw [if_neg (by omega)]

/-
Helper lemmas about totals.
-/

lemma foldl_boolsum (l : List AttemptRow) (s : Nat) :
    l.foldl (fun acc a => acc + (if a.correct then 1 else 0)) s = s + l.countP (fun a => a.correct) := by
  induction l generalizing s with
  | nil => simp
  | cons a l ih =>
    simp only [List.foldl_cons, List.countP_cons, ih]
    cases h : a.correct <;> simp [h]
    all_goals omega

lemma getTotals_acc (db : DB) (u : String) :
    (getTotals db u).acc =
      (if (getTotals db u).n = 0 then 0
       else ((getTotals db u).correct : ℚ) / ((getTotals db u).n : ℚ)) := rfl

lemma getTotals_congr (db1 db2 : DB) (u : String) (h : db1.attempts = db2.attempts) :
    getTotals db1 u = getTotals db2 u := by
  simp only [getTotals, h]

/-
Helper lemmas about the seeded letter catalog and per-letter rows.
-/

lemma sortLetters_seeded : List.insertionSort orderIdxLe seededLetters = seededLetters := by decide

lemma seeded_map_ar : seededLetters.map LetterRow.ar = CANON_LETTERS := by decide

lemma seeded_get : ∀ i, i < 28 →
    seededLetters.getD i { id := 0, ar := "", en := none, order_index := 0 } =
      { id := i, ar := CANON_LETTERS.getD i "", en := none, order_index := i } := by
  decide

lemma perLetterRow_n (db : DB) (u : String) (l : LetterRow) :
    (perLetterRow db u l).n =
      db.attempts.countP (fun a => a.user_id == u && a.target_letter_id == l.id) := by
  simp only [perLetterRow, List.countP_eq_length_filter]
  congr 1
  apply List.filter_congr
  intro a _
  cases h1 : a.user_id == u <;> cases h2 : a.target_letter_id == l.id <;> simp [h1, h2]

lemma perLetterRow_correct (db : DB) (u : String) (l : LetterRow) :
    (perLetterRow db u l).correct =
      db.attempts.countP (fun a => a.user_id == u && a.target_letter_id == l.id && a.correct) := by
  simp only [perLetterRow, List.countP_eq_length_filter, List.filter_filter]
  congr 1
  apply List.filter_congr
  intro a _
  cases h1 : a.user_id == u <;> cases h2 : a.target_letter_id == l.id <;>
    cases h3 : a.correct <;> simp [h1, h2, h3]

lemma perLetterRow_acc (db : DB) (u : String) (l : LetterRow) :
    (perLetterRow db u l).acc =
      (if (perLetterRow db u l).n = 0 then 0
       else ((perLetterRow db u l).correct : ℚ) / ((perLetterRow db u l).n : ℚ)) := rfl

/-
Helper lemmas about the threshold scan and the user-level upsert.
-/

lemma bestLevelFrom_cons (L : LevelRow) (ls : List LevelRow) (n : Nat) (acc : ℚ) (b : Nat) :
    bestLevelFrom (L :: ls) n acc b =
      bestLevelFrom ls n acc (if L.min_attempts ≤ n ∧ L.min_accuracy ≤ acc then L.level else b) := rfl

lemma bestLevel_char (n : Nat) (acc : ℚ) (ls : List LevelRow) (hp : ls.Pairwise levelLe) :
    ∀ b : Nat,
      (bestLevelFrom ls n acc b = b ∧
        ∀ L ∈ ls, ¬(L.min_attempts ≤ n ∧ L.min_accuracy ≤ acc)) ∨
      (∃ L ∈ ls, (L.min_attempts ≤ n ∧ L.min_accuracy ≤ acc) ∧
        bestLevelFrom ls n acc b = L.level ∧
        ∀ M ∈ ls, (M.min_attempts ≤ n ∧ M.min_accuracy ≤ acc) → M.level ≤ bestLevelFrom ls n acc b) := by
  induction ls with
  | nil =>
    intro b
    left
    exact ⟨rfl, by simp⟩
  | cons L ls ih =>
    intro b
    obtain ⟨hL, hp2⟩ := List.pairwise_cons.mp hp
    by_cases hok : L.min_attempts ≤ n ∧ L.min_accuracy ≤ acc
    · have hfold : bestLevelFrom (L :: ls) n acc b = bestLevelFrom ls n acc L.level := by
        rw [bestLevelFrom_cons, if_pos hok]
      rcases ih hp2 L.level with ⟨heq, hnone⟩ | ⟨M, hM, hMok, heq, hmax⟩
      · right
        refine ⟨L, List.mem_cons_self L ls, hok, by rw [hfold, heq], ?_⟩
        intro M hM hMok
        rcases List.mem_cons.mp hM with rfl | hM2
        · rw [hfold, heq]
        · exact absurd hMok (hnone M hM2)
      · right
        refine ⟨M, List.mem_cons_of_mem L hM, hMok, by rw [hfold, heq], ?_⟩
        intro M2 hM2 hM2ok
        rcases List.mem_cons.mp hM2 with rfl | hM3
        · rw [hfold, heq]
          exact hL M hM
        · rw [hfold]
          exact hmax M2 hM3 hM2ok
    · have hfold : bestLevelFrom (L :: ls) n acc b = bestLevelFrom ls n acc b := by
        rw [bestLevelFrom_cons, if_neg hok]
      rcases ih hp2 b with ⟨heq, hnone⟩ | ⟨M, hM, hMok, heq, hmax⟩
      · left
        refine ⟨by rw [hfold, heq], ?_⟩
        intro M hM
        rcases List.mem_cons.mp hM with rfl | hM2
        · exact hok
        · exact hnone M hM2
      · right
        refine ⟨M, List.mem_cons_of_mem L hM, hMok, by rw [hfold, heq], ?_⟩
        intro M2 hM2 hM2ok
        rcases List.mem_cons.mp hM2 with rfl | hM3
        · exact absurd hM2ok hok
        · rw [hfold]
          exact hmax M2 hM3 hM2ok

lemma computeLevel_fst (db : DB) (u now : String) :
    (computeAndUpdateLevel db u now).1 =
      bestLevel (List.insertionSort levelLe db.levels) (getTotals db u).n (getTotals db u).acc := rfl

lemma sortLevels_seeded : List.insertionSort levelLe seededLevels = seededLevels := rfl

lemma db20_totals_n : (getTotals db20 "u").n = 20 := by decide

lemma db20_totals_c : (getTotals db20 "u").correct = 10 := by decide

lemma db50_totals_n : (getTotals db50 "u").n = 50 := by decide

lemma db50_totals_c : (getTotals db50 "u").correct = 35 := by decide

lemma dbHigh_totals_n : (getTotals dbHigh "u").n = 50 := by decide

lemma dbHigh_totals_c : (getTotals dbHigh "u").correct = 50 := by decide

lemma dbDrop_totals_n : (getTotals dbDrop "u").n = 100 := by decide

lemma dbDrop_totals_c : (getTotals dbDrop "u").correct = 50 := by decide

lemma find_upsertRows (rows : List UserLevelRow) (u : String) (lvl : Nat) (now : String) :
    ((upsertRows rows u lvl now).find? (fun r => r.user_id == u)).map (fun r => r.level) =
      some lvl := by
  unfold upsertRows
  by_cases hany : rows.any (fun r => r.user_id == u)
  · rw [if_pos hany]
    induction rows with
    | nil => simp at hany
    | cons r rs ih =>
      by_cases hr : r.user_id == u
      · simp only [List.map_cons, List.find?_cons]
        rw [if_pos hr]
        simp [hr]
      · simp only [List.map_cons, List.find?_cons]
        rw [if_neg hr]
        simp only [hr, Bool.false_eq_true, not_false_eq_true, List.find?_cons_of_neg]
        have hany2 : rs.any (fun r => r.user_id == u) := by
          rcases List.any_eq_true.mp hany with ⟨x, hx, hxp⟩
          rcases List.mem_cons.mp hx with rfl | hx2
          · exact absurd hxp hr
          · exact List.any_eq_true.mpr ⟨x, hx2, hxp⟩
        exact ih hany2
  · rw [if_neg hany]
    have hnone : rows.find? (fun r => r.user_id == u) = none := by
      rw [List.find?_eq_none]
      intro x hx
      exact fun hxp => hany (List.any_eq_true.mpr ⟨x, hx, hxp⟩)
    rw [List.find?_append, hnone]
    simp

lemma getCurrentLevel_after (db : DB) (u now : String) :
    getCurrentLevel (computeAndUpdateLevel db u now).2 u = (computeAndUpdateLevel db u now).1 := by
  have h2 : (computeAndUpdateLevel db u now).2.user_levels =
      upsertRows db.user_levels u (computeAndUpdateLevel db u now).1 now := rfl
  rw [getCurrentLevel, h2, find_upsertRows]
  rfl

lemma dbHigh_level : (computeAndUpdateLevel dbHigh "u" "2025-01-02T00:00:00.000Z").1 = 2 := by
  rw [computeLevel_fst]
  have hacc : (getTotals dbHigh "u").acc = (50 : ℚ) / 50 := by
    rw [getTotals_acc, dbHigh_totals_n, dbHigh_totals_c]
    norm_num
  rw [dbHigh_totals_n, hacc, show dbHigh.levels = seededLevels from rfl, sortLevels_seeded]
  simp only [bestLevel, bestLevelFrom, seededLevels, List.foldl_cons, List.foldl_nil]
  norm_num

/-
Helper lemmas about the day-grouping of the trailing 7-day queries.
-/

lemma dayRowFor_day (as : List AttemptRow) (d : String) : (dayRowFor as d).day = d := rfl

lemma groupByDay_map_day (as : List AttemptRow) :
    (groupByDay as).map DayRow.day = List.insertionSort dayRel (as.map dayOf).dedup := by
  rw [groupByDay, List.map_map]
  have h : (DayRow.day ∘ dayRowFor as) = id := by
    funext d
    rfl
  rw [h, List.map_id]

lemma groupByDay_days_nodup (as : List AttemptRow) : ((groupByDay as).map DayRow.day).Nodup := by
  rw [groupByDay_map_day]
  exact (List.perm_insertionSort dayRel _).symm.nodup (List.nodup_dedup _)

lemma groupByDay_mem_day (as : List AttemptRow) (b : DayRow) (hb : b ∈ groupByDay as) :
    b.day ∈ as.map dayOf := by
  have h1 : b.day ∈ (groupByDay as).map DayRow.day := List.mem_map_of_mem DayRow.day hb
  rw [groupByDay_map_day] at h1
  exact List.mem_dedup.mp ((List.perm_insertionSort dayRel _).mem_iff.mp h1)

lemma groupByDay_row (as : List AttemptRow) (b : DayRow) (hb : b ∈ groupByDay as) :
    b = dayRowFor as b.day := by
  rw [groupByDay] at hb
  rcases List.mem_map.mp hb with ⟨d, _, rfl⟩
  rfl

lemma groupByDay_complete (as : List AttemptRow) (a : AttemptRow) (ha : a ∈ as) :
    ∃ b ∈ groupByDay as, b.day = dayOf a := by
  have hm : dayRowFor as (dayOf a) ∈ groupByDay as := by
    rw [groupByDay]
    exact List.mem_map_of_mem _ ((List.perm_insertionSort dayRel _).mem_iff.mpr
      (List.mem_dedup.mpr (List.mem_map_of_mem dayOf ha)))
  exact ⟨dayRowFor as (dayOf a), hm, dayRowFor_day as (dayOf a)⟩

lemma dayRowFor_n (as : List AttemptRow) (d : String) :
    (dayRowFor as d).n = as.countP (fun a => dayOf a == d) := by
  rw [dayRowFor, List.countP_eq_length_filter]

lemma dayRowFor_pos (as : List AttemptRow) (d : String) (hd : d ∈ as.map dayOf) :
    0 < (dayRowFor as d).n := by
  rw [dayRowFor_n]
  rcases List.mem_map.mp hd with ⟨a, ha, rfl⟩
  exact List.countP_pos_iff.mpr ⟨a, ha, by simp⟩

lemma dayRowFor_acc_def (as : List AttemptRow) (d : String) :
    (dayRowFor as d).acc =
      (if (dayRowFor as d).n = 0 then (0 : ℚ)
       else (((as.filter (fun a => dayOf a == d)).filter (fun a => a.correct)).length : ℚ) /
            ((dayRowFor as d).n : ℚ)) := rfl

lemma dayRowFor_acc (as : List AttemptRow) (d : String) (h : 0 < (dayRowFor as d).n) :
    (dayRowFor as d).acc =
      ((as.countP (fun a => dayOf a == d && a.correct)) : ℚ) / ((dayRowFor as d).n : ℚ) := by
  have hnum : ((as.filter (fun a => dayOf a == d)).filter (fun a => a.correct)).length =
      as.countP (fun a => dayOf a == d && a.correct) := by
    rw [← List.countP_eq_length_filter, List.countP_filter]
    apply List.countP_congr
    intro a _
    cases h1 : dayOf a == d <;> cases h2 : a.correct <;> simp [h1, h2]
  rw [dayRowFor_acc_def, if_neg (by omega), hnum]

lemma groupByDay_filter_char (p : AttemptRow → Bool) (l : List AttemptRow) :
    ((groupByDay (l.filter p)).map DayRow.day).Nodup ∧
    (∀ b ∈ groupByDay (l.filter p),
      b.n = l.countP (fun a => p a && dayOf a == b.day) ∧ 0 < b.n ∧
      b.acc = ((l.countP (fun a => (p a && dayOf a == b.day) && a.correct)) : ℚ) / (b.n : ℚ)) ∧
    (∀ a ∈ l, p a → ∃ b ∈ groupByDay (l.filter p), b.day = dayOf a) := by
  refine ⟨groupByDay_days_nodup _, ?_, ?_⟩
  · intro b hb
    have hrow := groupByDay_row _ b hb
    have hd : b.day ∈ (l.filter p).map dayOf := groupByDay_mem_day _ b hb
    have hn : b.n = (dayRowFor (l.filter p) b.day).n := congrArg DayRow.n hrow
    have hacc : b.acc = (dayRowFor (l.filter p) b.day).acc := congrArg DayRow.acc hrow
    have hpos : 0 < (dayRowFor (l.filter p) b.day).n := dayRowFor_pos _ _ hd
    have hcount : (dayRowFor (l.filter p) b.day).n =
        l.countP (fun a => p a && dayOf a == b.day) := by
      rw [dayRowFor_n, List.countP_filter]
      apply List.countP_congr
      intro a _
      cases h1 : p a <;> cases h2 : dayOf a == b.day <;> simp [h1, h2]
    refine ⟨by rw [hn, hcount], by omega, ?_⟩
    have hcor : (l.filter p).countP (fun a => dayOf a == b.day && a.correct) =
        l.countP (fun a => (p a && dayOf a == b.day) && a.correct) := by
      rw [List.countP_filter]
      apply List.countP_congr
      intro a _
      cases h1 : p a <;> cases h2 : dayOf a == b.day <;> cases h3 : a.correct <;> simp [h1, h2, h3]
    rw [hacc, dayRowFor_acc _ _ hpos, hcor, ← hn]
  · intro a ha hp
    exact groupByDay_complete _ a (List.mem_filter.mpr ⟨ha, hp⟩)

/-
Additional helper evaluations for the concrete level scenarios.
-/

lemma db20_level : ∀ now : String, (computeAndUpdateLevel db20 "u" now).1 = 1 := by
  intro now
  rw [computeLevel_fst]
  have hacc : (getTotals db20 "u").acc = (10 : ℚ) / 20 := by
    rw [getTotals_acc, db20_totals_n, db20_totals_c]
    norm_num
  rw [db20_totals_n, hacc, show db20.levels = seededLevels from rfl, sortLevels_seeded]
  simp only [bestLevel, bestLevelFrom, seededLevels, List.foldl_cons, List.foldl_nil]
  norm_num

lemma db50_level : ∀ now : String, (computeAndUpdateLevel db50 "u" now).1 = 2 := by
  intro now
  rw [computeLevel_fst]
  have hacc : (getTotals db50 "u").acc = (35 : ℚ) / 50 := by
    rw [getTotals_acc, db50_totals_n, db50_totals_c]
    norm_num
  rw [db50_totals_n, hacc, show db50.levels = seededLevels from rfl, sortLevels_seeded]
  simp only [bestLevel, bestLevelFrom, seededLevels, List.foldl_cons, List.foldl_nil]
  norm_num

lemma dbDrop_level : (computeAndUpdateLevel dbDrop "u" "2025-01-03T00:00:00.000Z").1 = 1 := by
  rw [computeLevel_fst]
  have hacc : (getTotals dbDrop "u").acc = (50 : ℚ) / 100 := by
    rw [getTotals_acc, dbDrop_totals_n, dbDrop_totals_c]
    norm_num
  rw [dbDrop_totals_n, hacc, show dbDrop.levels = seededLevels from rfl, sortLevels_seeded]
  simp only [bestLevel, bestLevelFrom, seededLevels, List.foldl_cons, List.foldl_nil]
  norm_num

/-
The claims.
-/

/-- C1: computeAndUpdateLevel returns the highest level among the threshold
rows whose min_attempts and min_accuracy are both simultaneously satisfied
by the user's current totals (the table is scanned in ascending level
order, so the last match of the scan is the highest match), defaulting to 1
when no threshold matches; with the seeded thresholds, a user with exactly
20 attempts at accuracy exactly 0.50 gets level 1 (in particular not level
2), and a user with 50 attempts at 0.70 accuracy gets level 2. -/
theorem C1_computeAndUpdateLevel_best (db : DB) (u now : String) :
    (((computeAndUpdateLevel db u now).1 = 1 ∧
        ∀ L ∈ db.levels,
          ¬(L.min_attempts ≤ (getTotals db u).n ∧ L.min_accuracy ≤ (getTotals db u).acc)) ∨
      (∃ L ∈ db.levels,
        (L.min_attempts ≤ (getTotals db u).n ∧ L.min_accuracy ≤ (getTotals db u).acc) ∧
        (computeAndUpdateLevel db u now).1 = L.level ∧
        ∀ M ∈ db.levels,
          (M.min_attempts ≤ (getTotals db u).n ∧ M.min_accuracy ≤ (getTotals db u).acc) →
            M.level ≤ (computeAndUpdateLevel db u now).1)) ∧
    (computeAndUpdateLevel db20 "u" now).1 = 1 ∧
    (computeAndUpdateLevel db50 "u" now).1 = 2 := by
  refine ⟨?_, db20_level now, db50_level now⟩
  rw [computeLevel_fst]
  have hp : (List.insertionSort levelLe db.levels).Pairwise levelLe :=
    List.sorted_insertionSort levelLe db.levels
  have hmem : ∀ L : LevelRow, L ∈ List.insertionSort levelLe db.levels ↔ L ∈ db.levels :=
    fun L => (List.perm_insertionSort levelLe db.levels).mem_iff
  rcases bestLevel_char (getTotals db u).n (getTotals db u).acc _ hp 1 with
    ⟨heq, hnone⟩ | ⟨L, hL, hok, heq, hmax⟩
  · left
    exact ⟨heq, fun L hL => hnone L ((hmem L).mpr hL)⟩
  · right
    exact ⟨L, (hmem L).mp hL, hok, heq, fun M hM hMok => hmax M ((hmem M).mpr hM) hMok⟩

/-- C2: on a database whose letters table is the seeded catalog,
getPerLetterStats returns exactly 28 rows, one per canonical catalog letter
in catalog order, and row i carries the user's attempt count and correct
count for letter i with accuracy correct/count, 0 when the count is 0. -/
theorem C2_getPerLetterStats (db : DB) (u : String) (h : db.letters = seededLetters) :
    (getPerLetterStats db u).length = 28 ∧
    (getPerLetterStats db u).map PerLetter.ar = CANON_LETTERS ∧
    ∀ i, i < 28 →
      ((getPerLetterStats db u).getD i dfltPerLetter).ar = CANON_LETTERS.getD i "" ∧
      ((getPerLetterStats db u).getD i dfltPerLetter).n =
        db.attempts.countP (fun a => a.user_id == u && a.target_letter_id == i) ∧
      ((getPerLetterStats db u).getD i dfltPerLetter).correct =
        db.attempts.countP (fun a => a.user_id == u && a.target_letter_id == i && a.correct) ∧
      ((getPerLetterStats db u).getD i dfltPerLetter).acc =
        (if ((getPerLetterStats db u).getD i dfltPerLetter).n = 0 then 0
         else (((getPerLetterStats db u).getD i dfltPerLetter).correct : ℚ) /
              (((getPerLetterStats db u).getD i dfltPerLetter).n : ℚ)) := by
  have hrows : getPerLetterStats db u = seededLetters.map (perLetterRow db u) := by
    rw [getPerLetterStats, h, sortLetters_seeded]
  have hlen28 : seededLetters.length = 28 := by decide
  refine ⟨by rw [hrows, List.length_map, hlen28], ?_, ?_⟩
  · rw [hrows, List.map_map]
    have hcomp : (PerLetter.ar ∘ perLetterRow db u) = LetterRow.ar := by
      funext l
      rfl
    rw [hcomp, seeded_map_ar]
  · intro i hi
    have hlen : i < seededLetters.length := by rw [hlen28]; exact hi
    have hv : seededLetters[i] =
        { id := i, ar := CANON_LETTERS.getD i "", en := none, order_index := i } := by
      have hg := seeded_get i hi
      rwa [List.getD_eq_getElem?_getD, List.getElem?_eq_getElem hlen, Option.getD_some] at hg
    have hget : (getPerLetterStats db u).getD i dfltPerLetter =
        perLetterRow db u { id := i, ar := CANON_LETTERS.getD i "", en := none, order_index := i } := by
      rw [hrows, List.getD_eq_getElem?_getD, List.getElem?_map,
        List.getElem?_eq_getElem hlen, hv]
      rfl
    rw [hget]
    exact ⟨rfl, perLetterRow_n db u _, perLetterRow_correct db u _, perLetterRow_acc db u _⟩

/-- C2 witness: applied to the freshly migrated database. -/
theorem C2_getPerLetterStats_witness : (getPerLetterStats dbSeeded "u").length = 28 :=
  (C2_getPerLetterStats dbSeeded "u" (by decide)).1

/-- C3 counterexample: the predicted label of `aEmptyPred` is present
(`some ""`) and the empty string is not in the canonical catalog, yet
recordAttempt does not raise an unknown-letter error — it inserts the row
with a NULL predicted letter, because the empty string is JavaScript-falsy
and the code skips resolution for falsy labels. -/
theorem C3_recordAttempt_counterexample :
    ("" ∈ CANON_LETTERS → False) ∧
    aEmptyPred.predictedLetterAr = some "" ∧
    recordAttempt dbSeeded aEmptyPred "2025-01-01T00:00:00.000Z" =
      .ok { dbSeeded with attempts :=
        dbSeeded.attempts ++ [newAttemptRow aEmptyPred 1 none "2025-01-01T00:00:00.000Z"] } := by
  refine ⟨by decide, rfl, ?_⟩
  have ht : letterIdByAr dbSeeded aEmptyPred.targetLetterAr = some 1 := by decide
  have hp : resolvePredicted dbSeeded aEmptyPred.predictedLetterAr = .ok none := rfl
  simp [recordAttempt, ht, hp]

/-- C3 (amended): recordAttempt raises the unknown-letter error and inserts
nothing when the target label does not resolve, or when a present and
non-empty predicted label does not resolve (an empty-string predicted label
is JavaScript-falsy and is treated as absent instead); when the target
resolves and the predicted label resolves (to an id, or to NULL because it
is absent or empty), it appends exactly one attempt row and modifies no
other table. -/
theorem C3_recordAttempt_amended (db : DB) (a : NewAttempt) (now : String) :
    (letterIdByAr db a.targetLetterAr = none →
      recordAttempt db a now = .error ("Unknown letter: " ++ a.targetLetterAr)) ∧
    (∀ tid s, letterIdByAr db a.targetLetterAr = some tid →
      a.predictedLetterAr = some s → s ≠ "" → letterIdByAr db s = none →
      recordAttempt db a now = .error ("Unknown letter: " ++ s)) ∧
    (∀ tid pid, letterIdByAr db a.targetLetterAr = some tid →
      resolvePredicted db a.predictedLetterAr = .ok pid →
      recordAttempt db a now =
        .ok { db with attempts := db.attempts ++ [newAttemptRow a tid pid now] }) := by
  refine ⟨?_, ?_, ?_⟩
  · intro h
    simp [recordAttempt, h]
  · intro tid s ht hp hs hu
    have hres : resolvePredicted db a.predictedLetterAr = .error ("Unknown letter: " ++ s) := by
      simp [resolvePredicted, hp, hs, hu]
    simp [recordAttempt, ht, hres]
  · intro tid pid ht hres
    simp [recordAttempt, ht, hres]

/-- C3 witness: an unknown target label is rejected on the seeded catalog. -/
theorem C3_recordAttempt_amended_witness :
    recordAttempt dbSeeded aBadTarget "2025-01-01T00:00:00.000Z" =
      .error ("Unknown letter: " ++ aBadTarget.targetLetterAr) :=
  (C3_recordAttempt_amended dbSeeded aBadTarget "2025-01-01T00:00:00.000Z").1 (by decide)

/-- C4: the level computed and stored by computeAndUpdateLevel depends only
on the attempts and levels tables — two states agreeing on those tables but
differing in user_levels yield the same returned and same stored level —
and consequently a level can decrease across calls: the dbHigh user is
stored at level 2, and after 50 further wrong attempts the next call
returns level 1. -/
theorem C4_level_ignores_user_levels (db1 db2 : DB) (u now : String)
    (ha : db1.attempts = db2.attempts) (hl : db1.levels = db2.levels) :
    (computeAndUpdateLevel db1 u now).1 = (computeAndUpdateLevel db2 u now).1 ∧
    getCurrentLevel (computeAndUpdateLevel db1 u now).2 u =
      getCurrentLevel (computeAndUpdateLevel db2 u now).2 u ∧
    getCurrentLevel dbAfterFirst "u" = 2 ∧
    (computeAndUpdateLevel dbDrop "u" "2025-01-03T00:00:00.000Z").1 = 1 := by
  have h1 : (computeAndUpdateLevel db1 u now).1 = (computeAndUpdateLevel db2 u now).1 := by
    rw [computeLevel_fst, computeLevel_fst, getTotals_congr db1 db2 u ha, hl]
  refine ⟨h1, ?_, ?_, dbDrop_level⟩
  · rw [getCurrentLevel_after, getCurrentLevel_after, h1]
  · rw [show getCurrentLevel dbAfterFirst "u" =
        getCurrentLevel (computeAndUpdateLevel dbHigh "u" "2025-01-02T00:00:00.000Z").2 "u" from rfl,
      getCurrentLevel_after, dbHigh_level]

/-- C4 witness: the seeded database and the same database with a different
user_levels table produce the same returned level. -/
theorem C4_level_ignores_user_levels_witness :
    (computeAndUpdateLevel dbSeeded "u" "2025-01-01T00:00:00.000Z").1 =
      (computeAndUpdateLevel dbAltLevels "u" "2025-01-01T00:00:00.000Z").1 :=
  (C4_level_ignores_user_levels dbSeeded dbAltLevels "u" "2025-01-01T00:00:00.000Z" rfl rfl).1

/-- C5 counterexample: with now = 2025-10-12T12:00:00Z, the SQLite cutoff
datetime(now, -7 days) renders as the string 2025-10-05 12:00:00 (space
separator), while the attempt stored at 2025-10-05T04:00:00Z — which is 7
days and 8 hours old, strictly older than 7 days — renders with a T
separator that compares greater than the space, so the attempt passes the
created_at >= cutoff filter and getLast7Days includes it in a bucket. -/
theorem C5_last7_counterexample :
    fmtAttemptTs 2025 10 5 4 0 0 0 = oldAttempt.created_at ∧
    fmtSqliteNow 2025 10 5 12 0 0 = "2025-10-05 12:00:00" ∧
    utcMillis 2025 10 12 12 0 0 0 - utcMillis 2025 10 5 12 0 0 0 = 7 * 86400000 ∧
    7 * 86400000 < utcMillis 2025 10 12 12 0 0 0 - utcMillis 2025 10 5 4 0 0 0 ∧
    (getLast7Days dbC5 "u" "2025-10-05 12:00:00").map DayRow.n = [1] ∧
    (getLast7Days dbC5 "u" "2025-10-05 12:00:00").map DayRow.day = ["2025-10-05"] := by
  refine ⟨by decide, by decide, by decide, by decide, by decide, by decide⟩

/-- C5 (amended): getLast7Days keeps exactly the user's attempts whose
created_at string compares >= the SQLite cutoff string (because the cutoff
uses a space separator where attempts use T, this window can also admit
attempts from the cutoff's own UTC calendar day that are older than exactly
7 days), and groups them by UTC calendar day (the 10-character prefix) into
exactly one bucket per day — distinct days, each bucket carrying that day's
attempt count and summed-correct-over-count accuracy, and every in-window
attempt is represented; getLast7DaysForLetters with a non-empty letter
subset does the same, additionally keeping only attempts whose target
letter resolves to a label in the subset. -/
theorem C5_last7_amended (db : DB) (u cutoff : String) (names : List String)
    (hne : names ≠ []) :
    ((getLast7Days db u cutoff).map DayRow.day).Nodup ∧
    (∀ b ∈ getLast7Days db u cutoff,
      b.n = db.attempts.countP
        (fun a => (a.user_id == u && strLe cutoff a.created_at) && dayOf a == b.day) ∧
      0 < b.n ∧
      b.acc = ((db.attempts.countP (fun a =>
        ((a.user_id == u && strLe cutoff a.created_at) && dayOf a == b.day) && a.correct)) : ℚ) /
        (b.n : ℚ)) ∧
    (∀ a ∈ db.attempts, (a.user_id == u && strLe cutoff a.created_at) = true →
      ∃ b ∈ getLast7Days db u cutoff, b.day = dayOf a) ∧
    ((getLast7DaysForLetters db u cutoff names).map DayRow.day).Nodup ∧
    (∀ b ∈ getLast7DaysForLetters db u cutoff names,
      b.n = db.attempts.countP
        (fun a => (a.user_id == u && strLe cutoff a.created_at &&
          (match targetAr db a with
           | some ar => names.contains ar
           | none => false)) && dayOf a == b.day) ∧
      0 < b.n ∧
      b.acc = ((db.attempts.countP (fun a =>
        ((a.user_id == u && strLe cutoff a.created_at &&
          (match targetAr db a with
           | some ar => names.contains ar
           | none => false)) && dayOf a == b.day) && a.correct)) : ℚ) /
        (b.n : ℚ)) ∧
    (∀ a ∈ db.attempts,
      (a.user_id == u && strLe cutoff a.created_at &&
        (match targetAr db a with
         | some ar => names.contains ar
         | none => false)) = true →
      ∃ b ∈ getLast7DaysForLetters db u cutoff names, b.day = dayOf a) := by
  have h7 : getLast7Days db u cutoff =
      groupByDay (db.attempts.filter (fun a => a.user_id == u && strLe cutoff a.created_at)) := rfl
  have hfe : names.isEmpty = false := List.isEmpty_eq_false.mpr hne
  have hL : getLast7DaysForLetters db u cutoff names =
      groupByDay (db.attempts.filter (fun a =>
        a.user_id == u && strLe cutoff a.created_at &&
        (match targetAr db a with
         | some ar => names.contains ar
         | none => false))) := by
    rw [getLast7DaysForLetters, hfe]
    simp
  obtain ⟨hn7, hb7, hc7⟩ :=
    groupByDay_filter_char (fun a => a.user_id == u && strLe cutoff a.created_at) db.attempts
  obtain ⟨hnL, hbL, hcL⟩ :=
    groupByDay_filter_char (fun a =>
      a.user_id == u && strLe cutoff a.created_at &&
      (match targetAr db a with
       | some ar => names.contains ar
       | none => false)) db.attempts
  rw [h7, hL]
  exact ⟨hn7, hb7, hc7, hnL, hbL, hcL⟩

/-- C5 witness: the day keys of the filtered series are distinct on a
concrete database and non-empty letter subset. -/
theorem C5_last7_amended_witness :
    ((getLast7Days dbC5 "u" "2025-10-05 12:00:00").map DayRow.day).Nodup :=
  (C5_last7_amended dbC5 "u" "2025-10-05 12:00:00" ["باء"] (by decide)).1

/-- C6: runMigrations is idempotent — a second invocation on any state it
has produced changes nothing (the version marker is at the latest migration
id, so no migration is applied) — and on a fresh database the double run
seeds the 28-letter catalog and the 5 level thresholds exactly once, the
count-of-rows guards preventing duplicate seed rows. -/
theorem C6_runMigrations_idempotent (db : DB) :
    runMigrations (runMigrations db) = runMigrations db ∧
    (runMigrations (runMigrations emptyDB)).letters = seededLetters ∧
    (runMigrations (runMigrations emptyDB)).levels = seededLevels ∧
    (runMigrations (runMigrations emptyDB)).meta = some 1 := by
  obtain ⟨v, hv, h⟩ := runMigrations_meta db
  exact ⟨runMigrations_fixed _ v hv h, rfl, rfl, rfl⟩

/-- C7: getTotals returns the user's attempt count, the count of those
attempts with correct set, and accuracy correct/n for n > 0 and 0 for
n = 0; in particular a user with no attempts gets n = 0 and acc = 0. -/
theorem C7_getTotals (db : DB) (u : String) :
    (getTotals db u).n = db.attempts.countP (fun a => a.user_id == u) ∧
    (getTotals db u).correct = db.attempts.countP (fun a => a.user_id == u && a.correct) ∧
    (0 < (getTotals db u).n →
      (getTotals db u).acc = ((getTotals db u).correct : ℚ) / ((getTotals db u).n : ℚ)) ∧
    ((getTotals db u).n = 0 → (getTotals db u).acc = 0) ∧
    (db.attempts.countP (fun a => a.user_id == u) = 0 →
      (getTotals db u).n = 0 ∧ (getTotals db u).acc = 0) := by
  have hn : (getTotals db u).n = db.attempts.countP (fun a => a.user_id == u) := by
    simp [getTotals, List.countP_eq_length_filter]
  have hc : (getTotals db u).correct =
      db.attempts.countP (fun a => a.user_id == u && a.correct) := by
    simp only [getTotals, foldl_boolsum, Nat.zero_add]
    rw [List.countP_filter]
    apply List.countP_congr
    intro a _
    cases h1 : a.user_id == u <;> cases h2 : a.correct <;> simp [h1, h2]
  have hpos : 0 < (getTotals db u).n →
      (getTotals db u).acc = ((getTotals db u).correct : ℚ) / ((getTotals db u).n : ℚ) := by
    intro h
    rw [getTotals_acc, if_neg (by omega)]
  have hzero : (getTotals db u).n = 0 → (getTotals db u).acc = 0 := by
    intro h
    rw [getTotals_acc, if_pos h]
  exact ⟨hn, hc, hpos, hzero, fun h0 => ⟨by rw [hn, h0], hzero (by rw [hn, h0])⟩⟩

/-- C7 witness: a user with no attempts on the freshly migrated database. -/
theorem C7_getTotals_witness :
    (getTotals dbSeeded "nobody").n = 0 ∧ (getTotals dbSeeded "nobody").acc = 0 :=
  (C7_getTotals dbSeeded "nobody").2.2.2.2 (by decide)

/-- C8: the guided-tour `next()` advances exactly one position along
home, levels, practice, profile, done, and is a no-op on the terminal step
done; being a total function on the step type, it rejects no transition. -/
theorem C8_tutorial_next :
    nextStep .home = .levels ∧ nextStep .levels = .practice ∧
    nextStep .practice = .profile ∧ nextStep .profile = .done ∧
    nextStep .done = .done := by
  decide

/-- C9: getLast7DaysForLetters with an empty letter subset returns the
empty series for every database, user and cutoff (the code short-circuits
before querying), not the unfiltered 7-day series. -/
theorem C9_last7_empty_letters (db : DB) (u cutoff : String) :
    getLast7DaysForLetters db u cutoff [] = [] := rfl

/-- C10: recordAttempt treats a falsy predicted label (absent or the empty
string) as absent: resolution is skipped, no unknown-letter error can
arise from it, and the row is inserted with a NULL predicted letter. -/
theorem C10_record_falsy_predicted (db : DB) (a : NewAttempt) (now : String) (tid : Nat)
    (ht : letterIdByAr db a.targetLetterAr = some tid)
    (hp : a.predictedLetterAr = none ∨ a.predictedLetterAr = some "") :
    recordAttempt db a now =
      .ok { db with attempts := db.attempts ++ [newAttemptRow a tid none now] } := by
  have hres : resolvePredicted db a.predictedLetterAr = .ok none := by
    rcases hp with hp | hp <;> simp [resolvePredicted, hp]
  simp [recordAttempt, ht, hres]

/-- C10 witness: an empty-string predicted label on the seeded catalog. -/
theorem C10_record_falsy_predicted_witness :
    recordAttempt dbSeeded aC10 "2025-01-01T00:00:00.000Z" =
      .ok { dbSeeded with attempts :=
        dbSeeded.attempts ++ [newAttemptRow aC10 2 none "2025-01-01T00:00:00.000Z"] } :=
  C10_record_falsy_predicted dbSeeded aC10 "2025-01-01T00:00:00.000Z" 2 (by decide) (Or.inr rfl)

end QariAI
